import Mathlib

/-!
Verification of the local-print-setup rendering pipeline.

This file gives a shallow embedding, in Lean 4, of the content-to-device
rendering pipeline of the repository: the JSON canonicalization and
content-hash used as cache key (`print-formatter.js` `generateContentHash`,
`sortObjectKeys`, and the non-canonicalizing variant of the same method in
the first `PrintFormatter` class of `src/unnamed/part_000`), the disk cache
expiry logic (`loadCacheFromDisk`), the monochrome rasterization loop and
the `GS v 0` raster framing command (`convertHTMLToImageNode`,
`formatImageForPrinter`), the paper-cut command handling
(`addCuttingCommands`, `printContentAsImage`, `printAsImage`,
`printToTCPPrinter`), the ticket status-indicator mapping
(`getStatusIndicator`), the bill money-field formatting
(`formatBillToHTML`, `formatBillTable`, `formatBillContent`), and the
configuration-merge behaviour of the formatter constructors.

JavaScript machine details are modelled as follows: the pixel luma
arithmetic is embedded as the exact binary64 (double) computation the
source performs — each literal is the double nearest its decimal and every
product and sum is rounded to nearest-even over 53 significand bits
(`roundF64`); JS numbers in money formatting are embedded as exact
rationals (`toFixed` is the exact decimal rounding); byte streams are
`List Nat` with every element kept below 256 by construction; JS strings are Lean `String`s
(`toUpperCase` is modelled character-wise on ASCII, which is exact on every
status keyword compared against); the filesystem used by the disk cache is
an association list from file name to parsed record.
-/

set_option maxRecDepth 20000

/-! ## JSON values

JavaScript objects handed to the formatter (`content`, `config`) are
embedded as a mutual inductive of JSON values: an object is a finite list
of key/value fields in iteration order, an array an ordered list of
values.  `jnum` carries the number's rendered decimal form, which is what
`JSON.stringify` emits for it. -/

mutual
inductive JsonVal where
  | jnull : JsonVal
  | jbool (b : Bool) : JsonVal
  | jnum (s : String) : JsonVal
  | jstr (s : String) : JsonVal
  | jarr (elems : JsonArr) : JsonVal
  | jobj (fields : JsonObj) : JsonVal
deriving DecidableEq

inductive JsonArr where
  | nil : JsonArr
  | cons (hd : JsonVal) (tl : JsonArr) : JsonArr
deriving DecidableEq

inductive JsonObj where
  | nil : JsonObj
  | cons (key : String) (val : JsonVal) (tl : JsonObj) : JsonObj
deriving DecidableEq
end

/-- The fields of an object as a Lean list of key/value pairs. -/
def toListO : JsonObj → List (String × JsonVal)
  | .nil => []
  | .cons k v tl => (k, v) :: toListO tl

/-- Rebuild an object from a list of key/value pairs. -/
def ofListO : List (String × JsonVal) → JsonObj
  | [] => .nil
  | (k, v) :: tl => .cons k v (ofListO tl)

/-- Key order used by `Object.keys(obj).sort()`: compare the keys.  (JS
sorts by UTF-16 code units; on such strings Lean's lexicographic `String`
order agrees for all code points of the basic multilingual plane, and only
the determinism and linearity of the order matter below.) -/
def keyLE (p q : String × JsonVal) : Prop := p.1 ≤ q.1

instance : DecidableRel keyLE := fun p q => inferInstanceAs (Decidable (p.1 ≤ q.1))

/-- Property lookup on an object: first field with the given key. -/
def lookupO (k : String) : JsonObj → Option JsonVal
  | .nil => none
  | .cons k' v tl => if k' = k then some v else lookupO k tl

/-- JS property assignment `obj[k] = v`: an existing field is updated in
place (its position is kept), a new field is appended at the end. -/
def setFieldO : JsonObj → String → JsonVal → JsonObj
  | .nil, k, v => .cons k v .nil
  | .cons k' v' tl, k, v =>
      if k' = k then .cons k' v tl else .cons k' v' (setFieldO tl k v)

/-! ## sortObjectKeys (print-formatter.js lines 83-98)

`sortObjectKeys` returns primitives unchanged, maps itself over arrays,
and rebuilds an object from its keys in sorted order with recursively
sorted values.  The sort of the key/value fields is embedded through
Mathlib's `insertionSort` by `keyLE`, which produces the same ascending
key order as `Object.keys(obj).sort()` on the (duplicate-free) keys of a
JS object. -/

mutual
def sortObjectKeys : JsonVal → JsonVal
  | .jnull => .jnull
  | .jbool b => .jbool b
  | .jnum s => .jnum s
  | .jstr s => .jstr s
  | .jarr l => .jarr (sortObjectKeysA l)
  | .jobj f => .jobj (ofListO (List.insertionSort keyLE (toListO (sortObjectKeysO f))))

def sortObjectKeysA : JsonArr → JsonArr
  | .nil => .nil
  | .cons v tl => .cons (sortObjectKeys v) (sortObjectKeysA tl)

def sortObjectKeysO : JsonObj → JsonObj
  | .nil => .nil
  | .cons k v tl => .cons k (sortObjectKeys v) (sortObjectKeysO tl)
end

/-! ## Equality up to key ordering

Two JSON values are `JEquiv` when they agree up to reordering of object
keys at every nesting depth: arrays stay ordered, object field lists may
be permuted (generated, as permutations are, by adjacent transpositions —
of fields with distinct keys, since a JS object never holds the same key
twice). -/

mutual
inductive JEquiv : JsonVal → JsonVal → Prop where
  | null : JEquiv .jnull .jnull
  | bool (b : Bool) : JEquiv (.jbool b) (.jbool b)
  | num (s : String) : JEquiv (.jnum s) (.jnum s)
  | str (s : String) : JEquiv (.jstr s) (.jstr s)
  | arr {l1 l2 : JsonArr} : JEquivA l1 l2 → JEquiv (.jarr l1) (.jarr l2)
  | obj {f1 f2 : JsonObj} : JEquivO f1 f2 → JEquiv (.jobj f1) (.jobj f2)

inductive JEquivA : JsonArr → JsonArr → Prop where
  | nil : JEquivA .nil .nil
  | cons {a b : JsonVal} {l1 l2 : JsonArr} :
      JEquiv a b → JEquivA l1 l2 → JEquivA (.cons a l1) (.cons b l2)

inductive JEquivO : JsonObj → JsonObj → Prop where
  | nil : JEquivO .nil .nil
  | cons (k : String) {v1 v2 : JsonVal} {f1 f2 : JsonObj} :
      JEquiv v1 v2 → JEquivO f1 f2 → JEquivO (.cons k v1 f1) (.cons k v2 f2)
  | swap (k1 k2 : String) (v1 v2 : JsonVal) (f : JsonObj) : k1 ≠ k2 →
      JEquivO (.cons k1 v1 (.cons k2 v2 f)) (.cons k2 v2 (.cons k1 v1 f))
  | trans {f1 f2 f3 : JsonObj} : JEquivO f1 f2 → JEquivO f2 f3 → JEquivO f1 f3
end

/-! ## JSON.stringify -/

/-- Hexadecimal digit characters, used by escape sequences and by the
`digest("hex")` rendering of the content hash. -/
def hexChar (d : Nat) : Char :=
  match d with
  | 0 => '0' | 1 => '1' | 2 => '2' | 3 => '3' | 4 => '4'
  | 5 => '5' | 6 => '6' | 7 => '7' | 8 => '8' | 9 => '9'
  | 10 => 'a' | 11 => 'b' | 12 => 'c' | 13 => 'd' | 14 => 'e' | _ => 'f'

/-- The escaping `JSON.stringify` applies inside a quoted string. -/
def escapeChar (c : Char) : List Char :=
  if c = '"' then ['\\', '"']
  else if c = '\\' then ['\\', '\\']
  else if c = '\n' then ['\\', 'n']
  else if c = '\r' then ['\\', 'r']
  else if c = '\t' then ['\\', 't']
  else if c = Char.ofNat 8 then ['\\', 'b']
  else if c = Char.ofNat 12 then ['\\', 'f']
  else if c.toNat < 32 then
    ['\\', 'u', '0', '0', hexChar (c.toNat / 16), hexChar (c.toNat % 16)]
  else [c]

/-- A JSON string literal: quoted and escaped. -/
def quoteJson (s : String) : String :=
  "\"" ++ String.mk (s.data.flatMap escapeChar) ++ "\""

mutual
def serializeV : JsonVal → String
  | .jnull => "null"
  | .jbool b => if b then "true" else "false"
  | .jnum s => s
  | .jstr s => quoteJson s
  | .jarr l => "[" ++ serializeA l ++ "]"
  | .jobj f => "\x7b" ++ serializeO f ++ "\x7d"

def serializeA : JsonArr → String
  | .nil => ""
  | .cons v .nil => serializeV v
  | .cons v (.cons w tl) => serializeV v ++ "," ++ serializeA (.cons w tl)

def serializeO : JsonObj → String
  | .nil => ""
  | .cons k v .nil => quoteJson k ++ ":" ++ serializeV v
  | .cons k v (.cons k' w tl) =>
      quoteJson k ++ ":" ++ serializeV v ++ "," ++ serializeO (.cons k' w tl)
end

/-! ## SHA-256 (crypto.createHash("sha256"))

A byte-level embedding of SHA-256 over `List Nat`, word arithmetic
carried out modulo `2^32`. -/

/-- `2^32`, the word modulus of SHA-256. -/
def M32 : Nat := 4294967296

/-- Rotate a 32-bit word right by `n`. -/
def rotr32 (x n : Nat) : Nat := ((x >>> n) ||| (x <<< (32 - n))) % M32

/-- The 64 SHA-256 round constants. -/
def shaK : List Nat := [
  1116352408, 1899447441, 3049323471, 3921009573, 961987163, 1508970993,
  2453635748, 2870763221, 3624381080, 310598401, 607225278, 1426881987,
  1925078388, 2162078206, 2614888103, 3248222580, 3835390401, 4022224774,
  264347078, 604807628, 770255983, 1249150122, 1555081692, 1996064986,
  2554220882, 2821834349, 2952996808, 3210313671, 3336571891, 3584528711,
  113926993, 338241895, 666307205, 773529912, 1294757372, 1396182291,
  1695183700, 1986661051, 2177026350, 2456956037, 2730485921, 2820302411,
  3259730800, 3345764771, 3516065817, 3600352804, 4094571909, 275423344,
  430227734, 506948616, 659060556, 883997877, 958139571, 1322822218,
  1537002063, 1747873779, 1955562222, 2024104815, 2227730452, 2361852424,
  2428436474, 2756734187, 3204031479, 3329325298]

/-- The SHA-256 initial hash state. -/
def shaH0 : List Nat := [
  1779033703, 3144134277, 1013904242, 2773480762,
  1359893119, 2600822924, 528734635, 1541459225]

/-- Append the `0x80` marker, zero padding and the 64-bit big-endian bit
length, reaching a multiple of 64 bytes. -/
def padMessage (msg : List Nat) : List Nat :=
  let len := msg.length
  let zeros := (64 - ((len + 9) % 64)) % 64
  let bitLen := 8 * len
  msg ++ [0x80] ++ List.replicate zeros 0 ++
    [bitLen >>> 56 % 256, bitLen >>> 48 % 256, bitLen >>> 40 % 256,
     bitLen >>> 32 % 256, bitLen >>> 24 % 256, bitLen >>> 16 % 256,
     bitLen >>> 8 % 256, bitLen % 256]

/-- Big-endian 32-bit word from four bytes of the block. -/
def word32At (bytes : List Nat) (i : Nat) : Nat :=
  (bytes.getD i 0) <<< 24 ||| (bytes.getD (i + 1) 0) <<< 16 |||
    (bytes.getD (i + 2) 0) <<< 8 ||| bytes.getD (i + 3) 0

def smallSigma0 (x : Nat) : Nat := rotr32 x 7 ^^^ rotr32 x 18 ^^^ (x >>> 3)

def smallSigma1 (x : Nat) : Nat := rotr32 x 17 ^^^ rotr32 x 19 ^^^ (x >>> 10)

def bigSigma0 (x : Nat) : Nat := rotr32 x 2 ^^^ rotr32 x 13 ^^^ rotr32 x 22

def bigSigma1 (x : Nat) : Nat := rotr32 x 6 ^^^ rotr32 x 11 ^^^ rotr32 x 25

/-- The 64-word message schedule of one block. -/
def schedule (block : List Nat) : List Nat :=
  let w0 := (List.range 16).map (fun i => word32At block (4 * i))
  (List.range 48).foldl (fun w _ =>
    let n := w.length
    let x := (smallSigma1 (w.getD (n - 2) 0) + w.getD (n - 7) 0 +
      smallSigma0 (w.getD (n - 15) 0) + w.getD (n - 16) 0) % M32
    w ++ [x]) w0

/-- One SHA-256 block compression. -/
def compressBlock (h : List Nat) (block : List Nat) : List Nat :=
  let w := schedule block
  let s := (List.range 64).foldl (fun (st : List Nat) i =>
    match st with
    | [a, b, c, d, e, f, g, hh] =>
      let ch := (e &&& f) ^^^ ((M32 - 1 - e) &&& g)
      let maj := (a &&& b) ^^^ (a &&& c) ^^^ (b &&& c)
      let t1 := (hh + bigSigma1 e + ch + shaK.getD i 0 + w.getD i 0) % M32
      let t2 := (bigSigma0 a + maj) % M32
      [(t1 + t2) % M32, a, b, c, (d + t1) % M32, e, f, g]
    | other => other) h
  (h.zip s).map (fun p => (p.1 + p.2) % M32)

/-- SHA-256 digest of a byte list, as 32 bytes. -/
def sha256Bytes (msg : List Nat) : List Nat :=
  let padded := padMessage msg
  let nBlocks := padded.length / 64
  let hFinal := (List.range nBlocks).foldl
    (fun h i => compressBlock h ((padded.drop (64 * i)).take 64)) shaH0
  hFinal.flatMap (fun x => [x >>> 24 % 256, x >>> 16 % 256, x >>> 8 % 256, x % 256])

/-- UTF-8 encoding of one character, as `hash.update(string)` applies to
the digested string. -/
def utf8Bytes (c : Char) : List Nat :=
  let n := c.toNat
  if n < 0x80 then [n]
  else if n < 0x800 then [0xC0 ||| (n >>> 6), 0x80 ||| (n &&& 0x3F)]
  else if n < 0x10000 then
    [0xE0 ||| (n >>> 12), 0x80 ||| ((n >>> 6) &&& 0x3F), 0x80 ||| (n &&& 0x3F)]
  else
    [0xF0 ||| (n >>> 18), 0x80 ||| ((n >>> 12) &&& 0x3F),
     0x80 ||| ((n >>> 6) &&& 0x3F), 0x80 ||| (n &&& 0x3F)]

/-- The UTF-8 bytes of a string. -/
def strBytes (s : String) : List Nat := s.data.flatMap utf8Bytes

/-- The hexadecimal rendering `digest("hex")` of a digest. -/
def sha256Hex (msg : List Nat) : String :=
  String.mk ((sha256Bytes msg).flatMap (fun b => [hexChar (b / 16), hexChar (b % 16)]))

/-! ## Content hash (cache fingerprint)

`print-formatter.js` lines 67-77 digest
`JSON.stringify({content: sortObjectKeys(content), type, config: this.config})`;
the first `PrintFormatter` class of `src/unnamed/part_000` (lines
1684-1700) digests `JSON.stringify({content, type, config: this.config})`
without canonicalizing `content`.  Both then take the SHA-256 hex digest
of the UTF-8 bytes of that string. -/

/-- Digest input of `generateContentHash` in `print-formatter.js`:
content canonicalized by `sortObjectKeys`. -/
def PrintFormatterJs.contentDigestInput (content : JsonVal) (type : String)
    (config : JsonVal) : String :=
  serializeV (.jobj (.cons "content" (sortObjectKeys content)
    (.cons "type" (.jstr type) (.cons "config" config .nil))))

/-- `generateContentHash` of `print-formatter.js` (lines 67-77). -/
def PrintFormatterJs.generateContentHash (content : JsonVal) (type : String)
    (config : JsonVal) : String :=
  sha256Hex (strBytes (PrintFormatterJs.contentDigestInput content type config))

/-- Digest input of `generateContentHash` in the first class of
`src/unnamed/part_000` (lines 1684-1700): the content object is digested
in its given key order, with no canonicalization step. -/
def Part000.contentDigestInput (content : JsonVal) (type : String)
    (config : JsonVal) : String :=
  serializeV (.jobj (.cons "content" content
    (.cons "type" (.jstr type) (.cons "config" config .nil))))

/-- `generateContentHash` of the first class of `src/unnamed/part_000`. -/
def Part000.generateContentHash (content : JsonVal) (type : String)
    (config : JsonVal) : String :=
  sha256Hex (strBytes (Part000.contentDigestInput content type config))

/-! ## Content mutation by the print entry points

`print-formatter.js` line 120 runs `content._printMethod = "html-image"`
inside `printContentAsImage`; `src/unnamed/part_000` line 84 runs
`content._printMethod = printMethod` inside `printContent`.  Everything
else in the pipeline only reads the content object (the formatters
destructure it, `sortObjectKeys` builds fresh objects), so the whole
mutation applied to the input is this one property assignment. -/

/-- The `content._printMethod = "html-image"` assignment of
`printContentAsImage` (`print-formatter.js` line 120).  A primitive
content value is returned unchanged (a JS property write on a primitive
is a silent no-op outside strict mode). -/
def PrintFormatterJs.markPrintMethod : JsonVal → JsonVal
  | .jobj f => .jobj (setFieldO f "_printMethod" (.jstr "html-image"))
  | v => v

/-- The `content._printMethod = printMethod` assignment of
`printContent` (`src/unnamed/part_000` line 84). -/
def Part000.markPrintMethod (printMethod : String) : JsonVal → JsonVal
  | .jobj f => .jobj (setFieldO f "_printMethod" (.jstr printMethod))
  | v => v

/-! ## Byte streams and paper-cut commands

Printer data is a byte stream; the relevant control bytes are
ESC = 0x1B = 27, GS = 0x1D = 29, BEL = 0x07, where a paper-cut command is
`GS V ...` (29, 86, ...). -/

/-- Number of `GS V` (29, 86) cut-command marks in a byte stream. -/
def countCutMarks : List Nat → Nat
  | a :: b :: rest => (if a = 29 ∧ b = 86 then 1 else 0) + countCutMarks (b :: rest)
  | _ => 0

/-- Whether the two-byte pattern `a b` occurs in the stream. -/
def hasPair (a b : Nat) : List Nat → Bool
  | x :: y :: rest => (x == a && y == b) || hasPair a b (y :: rest)
  | _ => false

/-- The scan of `printToTCPPrinter` (`local-print-agent.js` lines 654-659):
the data already carries a cut when it contains `ESC d` (27, 100),
`ESC V` (27, 86) or `GS V` (29, 86). -/
def LocalPrintAgent.hasCutCommand (data : List Nat) : Bool :=
  hasPair 27 100 data || hasPair 27 86 data || hasPair 29 86 data

/-- The buffer `printToTCPPrinter` writes to the socket
(`local-print-agent.js` lines 661-668): the data itself when a cut
command is detected, otherwise the data followed by `GS V A 16`
(full cut with feed). -/
def LocalPrintAgent.printerPayload (data : List Nat) : List Nat :=
  if LocalPrintAgent.hasCutCommand data then data
  else data ++ [0x1d, 0x56, 0x41, 0x10]

/-- `addCuttingCommands` (`src/unnamed/part_000` lines 132-148): feed 3
lines (`ESC d 3`), two BEL beeps, one full cut (`GS V 0`). -/
def Part000.addCuttingCommands (content : List Nat) : List Nat :=
  content ++ [27, 100, 3] ++ [7, 7] ++ [29, 86, 0]

/-- The final assembly of `printContentAsImage` in `src/unnamed/part_000`
(lines 215-236) around the raster commands: `ESC @`, the image command,
`ESC d 8`, two BEL beeps, `ESC B 3 3 1`, then a full cut `GS V 0` AND a
partial cut `GS V A 3`. -/
def Part000.printImageFinal (printCommands : List Nat) : List Nat :=
  [27, 64] ++ printCommands ++ [27, 100, 8] ++ [7, 7] ++ [27, 66, 3, 3, 1] ++
    [29, 86, 0] ++ [29, 86, 65, 3]

/-- The final assembly of `printAsImage` in `print-formatter.js` (lines
305-317): `ESC @`, the image command, beep `ESC B 2 1`, one line feed,
then `FEED_AND_CUT` = `ESC d 3` followed by `GS V B 3`. -/
def PrintFormatterJs.printAsImageFinal (printCommands : List Nat) : List Nat :=
  [27, 64] ++ printCommands ++ [27, 66, 2, 1] ++ [10] ++ [27, 100, 3] ++
    [29, 86, 66, 3]

/-! ## Rasterization (convertHTMLToImageNode, print-formatter.js lines 393-427)

The captured screenshot is a flat RGBA byte array; pixel `(x, y)` has its
red, green, blue bytes at indices `(y*width+x)*4 + 0,1,2`.  The pixel
array is embedded as a function from index to byte. -/

/-- Horizontal byte width `Math.ceil(width / 8)`. -/
def widthBytes (width : Nat) : Nat := (width + 7) / 8

/-- Floor of log2 by repeated halving; `fuel ≥ n` makes it exact for
`n ≥ 1`. -/
def log2Fuel : Nat → Nat → Nat
  | 0, _ => 0
  | f + 1, n => if 2 ≤ n then log2Fuel f (n / 2) + 1 else 0

/-- Floor of log2 of a natural number (0 for 0 and 1). -/
def natLog2 (n : Nat) : Nat := log2Fuel n n

/-- `2 ^ t` as a rational, for an integer exponent. -/
def pow2q (t : Int) : ℚ :=
  if 0 ≤ t then ((2 ^ t.toNat : Nat) : ℚ) else 1 / ((2 ^ (-t).toNat : Nat) : ℚ)

/-- Floor of log2 of a positive rational: the bit-length estimate from
numerator and denominator is off by at most one and is corrected by
direct comparison. -/
def ratLog2 (a : ℚ) : Int :=
  let e0 : Int := (natLog2 a.num.natAbs : Int) - (natLog2 a.den : Int)
  if a < pow2q e0 then e0 - 1
  else if pow2q (e0 + 1) ≤ a then e0 + 1
  else e0

/-- IEEE 754 binary64 rounding — round to nearest, ties to even, 53
significand bits — of a rational.  Exact on the normal range, which
covers every value of the luma computation; zero is returned exactly. -/
def roundF64 (q : ℚ) : ℚ :=
  if q = 0 then 0
  else
    let a := |q|
    let e := ratLog2 a
    let scaled := a * pow2q (52 - e)
    let fl : Int := scaled.num / (scaled.den : Int)
    let rem : ℚ := scaled - (fl : ℚ)
    let m : Int :=
      if rem < 1 / 2 then fl
      else if 1 / 2 < rem then fl + 1
      else if fl % 2 = 0 then fl else fl + 1
    (if q < 0 then -1 else 1) * (m : ℚ) * pow2q (e - 52)

/-- The binary64 value of the literal `0.299`: the double nearest
`299/1000`. -/
def c0299 : ℚ := 5386305154335113 / 18014398509481984

/-- The binary64 value of the literal `0.587`. -/
def c0587 : ℚ := 2643612981266481 / 4503599627370496

/-- The binary64 value of the literal `0.114`. -/
def c0114 : ℚ := 8214565720323785 / 72057594037927936

/-- The luma of pixel `(x, y)` as the source computes it
(`print-formatter.js` line 408): the float64 evaluation of
`0.299 * r + 0.587 * g + 0.114 * b`, left-associated, every product and
sum rounded to binary64.  (Pixel bytes 0..255 are exactly
representable.) -/
def luma (pixels : Nat → Nat) (width x y : Nat) : ℚ :=
  let idx := (y * width + x) * 4
  roundF64 (roundF64 (roundF64 (c0299 * pixels idx) +
    roundF64 (c0587 * pixels (idx + 1))) + roundF64 (c0114 * pixels (idx + 2)))

/-- Threshold at 128 on the float64 luma: ink (bit 1) strictly below,
blank at or above. -/
def thresholdBit (pixels : Nat → Nat) (width x y : Nat) : Bool :=
  decide (luma pixels width x y < 128)

/-- One iteration of the pixel loop: when the pixel is ink, OR bit
`7 - x % 8` into byte `y * widthBytes + x / 8` (MSB first). -/
def processPixel (pixels : Nat → Nat) (width wB : Nat) (mono : List Nat)
    (x y : Nat) : List Nat :=
  if thresholdBit pixels width x y then
    let byteIdx := y * wB + x / 8
    mono.set byteIdx (mono.getD byteIdx 0 ||| (1 <<< (7 - x % 8)))
  else mono

/-- The double loop of `convertHTMLToImageNode` filling the
`Uint8Array(widthBytes * height)` of monochrome data. -/
def convertToMonochrome (pixels : Nat → Nat) (width height : Nat) : List Nat :=
  (List.range height).foldl
    (fun mono y => (List.range width).foldl
      (fun m x => processPixel pixels width (widthBytes width) m x y) mono)
    (List.replicate (widthBytes width * height) 0)


/-- The raster order of the double pixel loop: for each row `y`, every
`(x, y)` with `x < w` (a proof device for reasoning about the loop). -/
def rasterPositions (w h : Nat) : List (Nat × Nat) :=
  ((List.range h).map (fun y => (List.range w).map (fun x => (x, y)))).flatten

/-- The artifact returned by `convertHTMLToImageNode`: capture dimensions
and packed monochrome bitmap.  (The PNG screenshot buffer also returned by
the source is not consumed by the framing command and is omitted.) -/
structure ImageResult where
  width : Nat
  height : Nat
  monochromeData : List Nat
deriving DecidableEq

/-- `formatImageForPrinter` (`print-formatter.js` lines 454-493): after
validating the artifact (a zero width or height is falsy and rejected),
emit `GS v 0` (29, 118, 48, 0), the byte width and the height each as
16-bit little-endian values, then the bitmap bytes and nothing else. -/
def formatImageForPrinter (img : ImageResult) : Except String (List Nat) :=
  if img.width = 0 ∨ img.height = 0 then
    .error "Invalid image data: missing required properties"
  else
    let wB := widthBytes img.width
    let xL := wB &&& 0xff
    let xH := (wB >>> 8) &&& 0xff
    let yL := img.height &&& 0xff
    let yH := (img.height >>> 8) &&& 0xff
    .ok ([29, 118, 48, 0] ++ [xL, xH, yL, yH] ++ img.monochromeData)

/-- The byte stream of `printContentAsImage` in `src/unnamed/part_000` for
a given artifact (cache and HTML generation aside, the raster command
wrapped by `printImageFinal`). -/
def Part000.printContentAsImageBytes (img : ImageResult) : Except String (List Nat) :=
  (formatImageForPrinter img).map Part000.printImageFinal

/-! ## Disk cache (print-formatter.js lines 185-243)

A durable cache record as parsed from `print-cache/<hash>.json`; the
filesystem is embedded as an association list from file name to record,
`Date.now()` as an integer millisecond clock. -/

structure CacheRecord where
  timestamp : Int
  imageData : String
  width : Nat
  height : Nat
  monochromeData : String
deriving DecidableEq

/-- The cache configuration of the constructor (lines 32-36). -/
structure CacheConfig where
  enabled : Bool
  maxAge : Int
  persistToDisk : Bool
deriving DecidableEq

/-- The defaults set by the constructor: enabled, 24-hour expiry,
persisted to disk. -/
def defaultCacheConfig : CacheConfig :=
  { enabled := true, maxAge := 24 * 60 * 60 * 1000, persistToDisk := true }

/-- The cache file name `${hash}.json`. -/
def cacheFileName (hash : String) : String := hash ++ ".json"

/-- `loadCacheFromDisk` (lines 213-243): a missing file is a miss; an
entry with `now - timestamp > maxAge` is deleted (`unlinkSync`) and is a
miss; otherwise the record is the hit.  Returns the result and the
filesystem after the call. -/
def loadCacheFromDisk (store : List (String × CacheRecord)) (maxAge now : Int)
    (hash : String) : Option CacheRecord × List (String × CacheRecord) :=
  match store.lookup (cacheFileName hash) with
  | none => (none, store)
  | some entry =>
    if now - entry.timestamp > maxAge then
      (none, store.filter (fun p => p.1 != cacheFileName hash))
    else (some entry, store)

/-! ## Formatter configuration (constructors, and divider)

The constructor of the first class of `src/unnamed/part_000` (lines
13-25) builds `this.config` as
`{ lineWidth: config.lineWidth || 384, ..., charsPerLine: config.charsPerLine || 32, ..., ...config }`:
each `|| default` guards against a missing or zero field, but the final
`...config` spread re-overwrites every key the caller did pass — so a
passed `charsPerLine: 0` survives as 0. -/

/-- The caller-supplied configuration object: `none` is an absent key. -/
structure ConfigInput where
  lineWidth : Option Nat
  deviceScaleFactor : Option Nat
  fontSize : Option Nat
  charsPerLine : Option Nat
  normalSize : Option Nat
  largeSize : Option Nat
  mediumSize : Option Nat
  smallSize : Option Nat
deriving DecidableEq

/-- The resolved configuration held in `this.config`. -/
structure FormatterConfig where
  lineWidth : Nat
  deviceScaleFactor : Nat
  fontSize : Nat
  charsPerLine : Nat
  normalSize : Nat
  largeSize : Nat
  mediumSize : Nat
  smallSize : Nat
deriving DecidableEq

/-- JS `x || d` on an optional number: `undefined` and `0` are falsy. -/
def jsOr (x : Option Nat) (d : Nat) : Nat :=
  match x with
  | some n => if n = 0 then d else n
  | none => d

/-- The constructor merge of `src/unnamed/part_000` lines 13-25: the
defaulted record, then every key present in the input re-applied on top
by the `...config` spread. -/
def Part000.mkConfig (c : ConfigInput) : FormatterConfig :=
  let defaults : FormatterConfig :=
    { lineWidth := jsOr c.lineWidth 384
      deviceScaleFactor := jsOr c.deviceScaleFactor 1
      fontSize := jsOr c.fontSize 24
      charsPerLine := jsOr c.charsPerLine 32
      normalSize := jsOr c.normalSize 0
      largeSize := jsOr c.largeSize 24
      mediumSize := jsOr c.mediumSize 16
      smallSize := jsOr c.smallSize 0 }
  { lineWidth := c.lineWidth.getD defaults.lineWidth
    deviceScaleFactor := c.deviceScaleFactor.getD defaults.deviceScaleFactor
    fontSize := c.fontSize.getD defaults.fontSize
    charsPerLine := c.charsPerLine.getD defaults.charsPerLine
    normalSize := c.normalSize.getD defaults.normalSize
    largeSize := c.largeSize.getD defaults.largeSize
    mediumSize := c.mediumSize.getD defaults.mediumSize
    smallSize := c.smallSize.getD defaults.smallSize }

/-- `divider()` (`src/unnamed/part_000` lines 1659-1661):
`"-".repeat(this.config.charsPerLine)`. -/
def Part000.divider (cfg : FormatterConfig) : String :=
  String.mk (List.replicate cfg.charsPerLine '-')

/-! ## Ticket status indicator -/

/-- `toUpperCase`, modelled character-wise (exact on ASCII, which covers
every keyword the status is compared against). -/
def jsToUpper (s : String) : String := s.map Char.toUpper

/-- `getStatusIndicator` (`print-formatter.js` lines 981-995 and,
identically, `src/unnamed/part_000` lines 1064-1078): the switch over the
upper-cased status. -/
def getStatusIndicator (status : String) : String :=
  if jsToUpper status = "NEW" then "N"
  else if jsToUpper status = "MODIFIED" then "M"
  else if jsToUpper status = "CANCEL" then "C"
  else if jsToUpper status = "CANCELLED" then "C"
  else if jsToUpper status = "REPEAT" then "R"
  else ""

/-- A ticket item as consumed by the KOT formatters. -/
structure KotItem where
  name : String
  quantity : Nat
  status : String
deriving DecidableEq

/-- The status cell of each emitted item row: `formatKOTToHTML` maps the
items to one row each and renders `getStatusIndicator(item.status)`. -/
def kotStatusCells (items : List KotItem) : List String :=
  items.map (fun it => getStatusIndicator it.status)

/-! ## Number rendering

`toFixed(2)` and the default number-to-string conversion used by the bill
formatters, over the exact rationals standing for JS numbers.  Digits are
rendered through an explicit digit table so that the character inventory
of each rendering is available to proofs. -/

/-- The decimal digit characters. -/
def digitChar (d : Nat) : Char :=
  match d with
  | 0 => '0' | 1 => '1' | 2 => '2' | 3 => '3' | 4 => '4'
  | 5 => '5' | 6 => '6' | 7 => '7' | 8 => '8' | _ => '9'

/-- Decimal digits of `n`, most significant first; `fuel` bounds the
recursion and any `fuel ≥ n ≥ 1` is exact. -/
def natChars : Nat → Nat → List Char
  | 0, _ => []
  | fuel + 1, n => if n = 0 then [] else natChars fuel (n / 10) ++ [digitChar (n % 10)]

/-- Decimal rendering of a natural number. -/
def natToString (n : Nat) : String :=
  if n = 0 then "0" else String.mk (natChars n n)

/-- Digits after the decimal point of `r / den` by long division; the
expansion of a JS number (denominator a power of two) terminates and is
rendered in full, matching the exact decimal the shortest round-trip
representation denotes. -/
def fracChars : Nat → Nat → Nat → List Char
  | 0, _, _ => []
  | fuel + 1, r, den =>
    if r = 0 then [] else
      digitChar (r * 10 / den) :: fracChars fuel (r * 10 % den) den

/-- JS default number-to-string conversion on an exact rational: sign,
integer part, and the (terminating) fractional expansion when nonzero. -/
def jsNumToString (q : ℚ) : String :=
  (if q.num < 0 then "-" else "") ++ natToString (q.num.natAbs / q.den) ++
    (if q.num.natAbs % q.den = 0 then ""
     else "." ++ String.mk (fracChars q.den (q.num.natAbs % q.den) q.den))

/-- `toFixed(2)`: round the magnitude to whole cents (half up) and render
with exactly two digits after the decimal point. -/
def jsToFixed2 (q : ℚ) : String :=
  let cents := ⌊|q| * 100 + 1 / 2⌋.toNat
  (if q < 0 then "-" else "") ++ natToString (cents / 100) ++ "." ++
    String.mk [digitChar (cents / 10 % 10), digitChar (cents % 10)]

/-- `padStart(n, c)`. -/
def padStart (n : Nat) (c : Char) (s : String) : String :=
  String.mk (List.replicate (n - s.length) c) ++ s

/-- A rendered number ends in a decimal point followed by exactly two
decimal digits (the shape `toFixed(2)` guarantees). -/
def moneyTwoDecimals (s : String) : Prop :=
  ∃ a d1 d2, s = a ++ "." ++ String.mk [d1, d2] ∧ d1.isDigit ∧ d2.isDigit

/-! ## Bill rendering (money fields)

`formatBillToHTML` (`print-formatter.js` lines 893-963) renders every
money value through `toFixed(2)`; `formatBillTable` (`src/unnamed/part_000`
lines 1905-1931) and `formatBillContent` (lines 2379-2407) render the item
unit price as the raw interpolation `${item.price || 0}` while the line
total and the summary fields go through `toFixed(2)`. -/

/-- A bill item: name, unit price, quantity. -/
structure BillItem where
  name : String
  price : ℚ
  quantity : Nat
deriving DecidableEq

/-- The bill summary fields consumed by the formatters. -/
structure BillSummary where
  subTotal : ℚ
  discountAmount : ℚ
  sgst : ℚ
  cgst : ℚ
  rounded : ℚ
  total : ℚ
deriving DecidableEq

/-- Every money string interpolated by `formatBillToHTML`, in document
order: per item the unit price and the line total, then subtotal,
discount amount, GST sum, the GST box (SGST, CGST, their sum), round off
and total payable. -/
def PrintFormatterJs.billMoneyStrings (items : List BillItem)
    (s : BillSummary) : List String :=
  items.flatMap (fun it => [jsToFixed2 it.price, jsToFixed2 (it.price * it.quantity)]) ++
    [jsToFixed2 s.subTotal, jsToFixed2 s.discountAmount,
     jsToFixed2 (s.sgst + s.cgst), jsToFixed2 s.sgst, jsToFixed2 s.cgst,
     jsToFixed2 (s.sgst + s.cgst), jsToFixed2 s.rounded, jsToFixed2 s.total]

/-- The four cells `formatBillTable` (`src/unnamed/part_000` lines
1905-1931) passes to `tableRow` for one item: name, `Rs.${item.price || 0}`
(raw number, no `toFixed`), the quantity right-aligned by `padStart(2)`,
and `Rs.${total.toFixed(2)}`. -/
def Part000Text.billItemCells (it : BillItem) : List String :=
  [it.name,
   "Rs." ++ jsNumToString it.price,
   padStart 2 ' ' (natToString it.quantity),
   "Rs." ++ jsToFixed2 (it.price * it.quantity)]

/-- The price, quantity and total columns of one simple-case item line of
`formatBillContent` (`src/unnamed/part_000` lines 2391-2407): again the
unit price is the raw `${item.price || 0}` padded to 8 characters. -/
def Part000Text.billContentColumns (it : BillItem) : List String :=
  [padStart 8 ' ' (jsNumToString it.price),
   padStart 3 ' ' (natToString it.quantity),
   padStart 10 ' ' (jsToFixed2 (it.price * it.quantity))]

/-! ## Theorems -/

theorem statusIndicator_mem (s : String) :
    getStatusIndicator s ∈ (["N", "M", "C", "R", ""] : List String) := by
  unfold getStatusIndicator
  split_ifs <;> simp

/-- C6: the rendered status indicator is derived case-insensitively from
the item's status string — NEW ↦ N, MODIFIED ↦ M, CANCEL/CANCELLED ↦ C,
REPEAT ↦ R, anything else (the empty string included) ↦ no indicator —
and every emitted item row carries one status cell drawn from
\x7bN, M, C, R, ""\x7d. -/
theorem status_indicator_spec : ∀ s : String,
    getStatusIndicator s ∈ (["N", "M", "C", "R", ""] : List String)
    ∧ (getStatusIndicator s = "N" ↔ jsToUpper s = "NEW")
    ∧ (getStatusIndicator s = "M" ↔ jsToUpper s = "MODIFIED")
    ∧ (getStatusIndicator s = "C" ↔
        (jsToUpper s = "CANCEL" ∨ jsToUpper s = "CANCELLED"))
    ∧ (getStatusIndicator s = "R" ↔ jsToUpper s = "REPEAT")
    ∧ (getStatusIndicator s = "" ↔
        jsToUpper s ∉ (["NEW", "MODIFIED", "CANCEL", "CANCELLED", "REPEAT"] : List String))
    ∧ ∀ items : List KotItem,
        (kotStatusCells items).length = items.length
        ∧ ∀ c ∈ kotStatusCells items, c ∈ (["N", "M", "C", "R", ""] : List String) := by
  intro s
  refine ⟨statusIndicator_mem s, ?_, ?_, ?_, ?_, ?_, ?_⟩
  · unfold getStatusIndicator; split_ifs <;> simp_all
  · unfold getStatusIndicator; split_ifs <;> simp_all
  · unfold getStatusIndicator; split_ifs <;> simp_all
  · unfold getStatusIndicator; split_ifs <;> simp_all
  · unfold getStatusIndicator; split_ifs <;> simp_all
  · intro items
    refine ⟨List.length_map _ _, ?_⟩
    intro c hc
    obtain ⟨it, _, rfl⟩ := List.mem_map.mp hc
    exact statusIndicator_mem it.status

/-- C8: the code keeps a caller-supplied `charsPerLine: 0` — the `|| 32`
default is re-overwritten by the trailing `...config` spread — and the
layout helpers proceed on it (the divider becomes the empty string)
instead of raising a configuration error; with the key absent the default
32 applies. -/
theorem zero_charsPerLine_kept :
    (Part000.mkConfig ⟨none, none, none, some 0, none, none, none, none⟩).charsPerLine = 0
    ∧ Part000.divider (Part000.mkConfig ⟨none, none, none, some 0, none, none, none, none⟩) = ""
    ∧ Part000.divider (Part000.mkConfig ⟨none, none, none, none, none, none, none, none⟩) =
        String.mk (List.replicate 32 '-') := by
  refine ⟨rfl, rfl, rfl⟩

theorem lookup_filter_self (l : List (String × CacheRecord)) (k : String) :
    (l.filter (fun p => p.1 != k)).lookup k = none := by
  induction l with
  | nil => rfl
  | cons a t ih =>
    obtain ⟨k', v⟩ := a
    by_cases h : k' = k
    · simpa [List.filter, h] using ih
    · have hne : (k' != k) = true := by simp [bne_iff_ne]; exact h
      have hbe : (k == k') = false := beq_eq_false_iff_ne.mpr (Ne.symm h)
      simp [List.filter_cons, hne, List.lookup, hbe, ih]

/-- C3: a durable cache entry older than `maxAge` (default 24 hours) at
read time is deleted from the store and reported as a miss — the entry's
file no longer resolves afterwards — while an entry at or under `maxAge`
is returned as a hit with the store untouched. -/
theorem loadCacheFromDisk_expiry :
    ∀ (store : List (String × CacheRecord)) (maxAge now : Int) (hash : String)
      (entry : CacheRecord),
    store.lookup (cacheFileName hash) = some entry →
    defaultCacheConfig.maxAge = 24 * 60 * 60 * 1000
    ∧ (now - entry.timestamp > maxAge →
        loadCacheFromDisk store maxAge now hash =
          (none, store.filter (fun p => p.1 != cacheFileName hash))
        ∧ (store.filter (fun p => p.1 != cacheFileName hash)).lookup
            (cacheFileName hash) = none)
    ∧ (now - entry.timestamp ≤ maxAge →
        loadCacheFromDisk store maxAge now hash = (some entry, store)) := by
  intro store maxAge now hash entry hl
  refine ⟨rfl, fun hexp => ⟨?_, lookup_filter_self _ _⟩, fun hfresh => ?_⟩
  · unfold loadCacheFromDisk
    rw [hl]
    simp [hexp]
  · unfold loadCacheFromDisk
    rw [hl]
    simp [not_lt.mpr hfresh]

/-- Concrete run of C3's theorem: one record written at time 0, read once
at 25 hours (expired, deleted) and once at 1 second (hit). -/
theorem loadCacheFromDisk_expiry_witness :
    loadCacheFromDisk [("h.json", ⟨0, "img", 8, 1, "m"⟩)] 86400000 90000000 "h"
      = (none, [])
    ∧ loadCacheFromDisk [("h.json", ⟨0, "img", 8, 1, "m"⟩)] 86400000 1000 "h"
      = (some ⟨0, "img", 8, 1, "m"⟩, [("h.json", ⟨0, "img", 8, 1, "m"⟩)]) :=
  ⟨((loadCacheFromDisk_expiry [("h.json", ⟨0, "img", 8, 1, "m"⟩)] 86400000 90000000
      "h" ⟨0, "img", 8, 1, "m"⟩ (by decide)).2.1 (by decide)).1,
   (loadCacheFromDisk_expiry [("h.json", ⟨0, "img", 8, 1, "m"⟩)] 86400000 1000
      "h" ⟨0, "img", 8, 1, "m"⟩ (by decide)).2.2 (by decide)⟩

/-- C5: for a valid artifact whose byte width and height fit 16 bits, the
raster command is the `GS v 0` prefix, then `ceil(width/8) mod 256`,
`floor(ceil(width/8)/256)`, `height mod 256`, `floor(height/256)` — byte
width then height, each little-endian 16-bit — then the packed bitmap
bytes and nothing else. -/
theorem formatImageForPrinter_framing :
    ∀ img : ImageResult, img.width ≠ 0 → img.height ≠ 0 →
    widthBytes img.width < 65536 → img.height < 65536 →
    formatImageForPrinter img =
      .ok ([29, 118, 48, 0] ++
        [widthBytes img.width % 256, widthBytes img.width / 256,
         img.height % 256, img.height / 256] ++ img.monochromeData) := by
  intro img hw hh hwB hH
  unfold formatImageForPrinter
  rw [if_neg (by push_neg; exact ⟨hw, hh⟩)]
  have hand : ∀ n : Nat, n &&& 255 = n % 256 := by
    intro n
    have h := Nat.and_pow_two_sub_one_eq_mod n 8
    norm_num at h
    exact h
  have hshift : ∀ n : Nat, n >>> 8 = n / 256 := by
    intro n
    have h := Nat.shiftRight_eq_div_pow n 8
    norm_num at h
    exact h
  have h1 : widthBytes img.width / 256 % 256 = widthBytes img.width / 256 :=
    Nat.mod_eq_of_lt (by omega)
  have h2 : img.height / 256 % 256 = img.height / 256 :=
    Nat.mod_eq_of_lt (by omega)
  simp only [hand, hshift, h1, h2]

/-- Concrete run of C5's theorem: an 8x1 artifact with one bitmap byte. -/
theorem formatImageForPrinter_framing_witness :
    formatImageForPrinter ⟨8, 1, [0]⟩ =
      .ok ([29, 118, 48, 0] ++ [1, 0, 1, 0] ++ [0]) :=
  formatImageForPrinter_framing ⟨8, 1, [0]⟩ (by decide) (by decide) (by decide)
    (by decide)

theorem foldl_length_invariant {α : Type} (f : List Nat → α → List Nat)
    (hf : ∀ m a, (f m a).length = m.length) :
    ∀ (l : List α) (m : List Nat), (l.foldl f m).length = m.length := by
  intro l
  induction l with
  | nil => intro m; rfl
  | cons a t ih => intro m; rw [List.foldl_cons, ih, hf]

theorem processPixel_length (pixels : Nat → Nat) (width wB : Nat)
    (m : List Nat) (x y : Nat) :
    (processPixel pixels width wB m x y).length = m.length := by
  unfold processPixel
  split
  · simp
  · rfl

/-- C10: the monochrome bitmap produced by the conversion loop has exactly
`ceil(width/8) * height` bytes; every successful raster command is 8
header bytes followed by the bitmap payload; so for a converted artifact
the payload length equals the byte-width/height product declared in the
framing header. -/
theorem monochrome_payload_matches_header :
    ∀ (pixels : Nat → Nat) (w h : Nat),
    (convertToMonochrome pixels w h).length = widthBytes w * h
    ∧ (∀ (img : ImageResult) (out : List Nat), formatImageForPrinter img = .ok out →
        out.length = 8 + img.monochromeData.length)
    ∧ (w ≠ 0 → h ≠ 0 →
        (formatImageForPrinter ⟨w, h, convertToMonochrome pixels w h⟩).map
          List.length = .ok (8 + widthBytes w * h)) := by
  intro pixels w h
  have hlen : (convertToMonochrome pixels w h).length = widthBytes w * h := by
    unfold convertToMonochrome
    rw [foldl_length_invariant _ (fun m y =>
      foldl_length_invariant _ (fun m' x => processPixel_length pixels w (widthBytes w) m' x y) _ m)]
    exact List.length_replicate _ _
  have hout : ∀ (img : ImageResult) (out : List Nat),
      formatImageForPrinter img = .ok out → out.length = 8 + img.monochromeData.length := by
    intro img out hok
    unfold formatImageForPrinter at hok
    split at hok
    · exact absurd hok (by simp)
    · simp only [Except.ok.injEq] at hok
      subst hok
      simp
      omega
  refine ⟨hlen, hout, fun hw hh => ?_⟩
  unfold formatImageForPrinter
  rw [if_neg (by push_neg; exact ⟨hw, hh⟩)]
  simp [Except.map, hlen]
  omega

theorem convertToMonochrome_eq_flat (pixels : Nat → Nat) (w h : Nat) :
    convertToMonochrome pixels w h =
      (rasterPositions w h).foldl
        (fun m p => processPixel pixels w (widthBytes w) m p.1 p.2)
        (List.replicate (widthBytes w * h) 0) := by
  unfold convertToMonochrome rasterPositions
  rw [List.foldl_flatten, List.foldl_map]
  congr 1
  funext mono y
  rw [List.foldl_map]

theorem testBit_processPixel (pixels : Nat → Nat) (w wB : Nat) (m : List Nat)
    (x y i b : Nat) (hidx : y * wB + x / 8 < m.length) :
    Nat.testBit ((processPixel pixels w wB m x y).getD i 0) b
      = (Nat.testBit (m.getD i 0) b ||
         (thresholdBit pixels w x y && decide (y * wB + x / 8 = i) &&
           decide (7 - x % 8 = b))) := by
  unfold processPixel
  cases hth : thresholdBit pixels w x y
  · simp
  · simp only [if_pos, Bool.true_and]
    rw [List.getD_eq_getElem?_getD, List.getD_eq_getElem?_getD]
    by_cases hi : y * wB + x / 8 = i
    · subst hi
      rw [List.getElem?_set_eq_of_lt _ hidx]
      simp only [Option.getD_some]
      rw [Nat.testBit_or, Nat.one_shiftLeft, Nat.testBit_two_pow]
      rw [← List.getD_eq_getElem?_getD]
      simp
    · rw [List.getElem?_set]
      simp [hi]

theorem testBit_foldRaster (pixels : Nat → Nat) (w wB : Nat) :
    ∀ (l : List (Nat × Nat)) (m : List Nat) (i b : Nat),
    (∀ p ∈ l, p.2 * wB + p.1 / 8 < m.length) →
    Nat.testBit ((l.foldl (fun acc p => processPixel pixels w wB acc p.1 p.2) m).getD i 0) b
      = (Nat.testBit (m.getD i 0) b ||
         l.any (fun p => thresholdBit pixels w p.1 p.2 &&
           decide (p.2 * wB + p.1 / 8 = i) && decide (7 - p.1 % 8 = b))) := by
  intro l
  induction l with
  | nil => simp
  | cons p t ih =>
    intro m i b hb
    rw [List.foldl_cons,
      ih _ i b (fun q hq => by
        rw [processPixel_length]
        exact hb q (List.mem_cons_of_mem _ hq)),
      testBit_processPixel pixels w wB m p.1 p.2 i b (hb p (List.mem_cons_self _ _))]
    simp [Bool.or_assoc]

theorem mem_rasterPositions {w h : Nat} {p : Nat × Nat} :
    p ∈ rasterPositions w h ↔ p.1 < w ∧ p.2 < h := by
  obtain ⟨x, y⟩ := p
  unfold rasterPositions
  constructor
  · intro hp
    obtain ⟨l, hl, hpl⟩ := List.mem_flatten.mp hp
    obtain ⟨y', hy', rfl⟩ := List.mem_map.mp hl
    obtain ⟨x', hx', heq⟩ := List.mem_map.mp hpl
    cases heq
    exact ⟨List.mem_range.mp hx', List.mem_range.mp hy'⟩
  · rintro ⟨hx, hy⟩
    exact List.mem_flatten.mpr ⟨(List.range w).map (fun x => (x, y)),
      List.mem_map.mpr ⟨y, List.mem_range.mpr hy, rfl⟩,
      List.mem_map.mpr ⟨x, List.mem_range.mpr hx, rfl⟩⟩

theorem row_of_byteIdx_eq {wB a y r1 r2 : Nat} (hr1 : r1 < wB) (hr2 : r2 < wB)
    (h : a * wB + r1 = y * wB + r2) : a = y ∧ r1 = r2 := by
  have hwB : 0 < wB := by omega
  have ha : (a * wB + r1) / wB = a := by
    rw [Nat.mul_comm a wB, Nat.mul_add_div hwB, Nat.div_eq_of_lt hr1, Nat.add_zero]
  have hy : (y * wB + r2) / wB = y := by
    rw [Nat.mul_comm y wB, Nat.mul_add_div hwB, Nat.div_eq_of_lt hr2, Nat.add_zero]
  have hay : a = y := by rw [← ha, ← hy, h]
  subst hay
  exact ⟨rfl, by omega⟩

/-- C4 (amended): for every pixel `(x, y)` of the capture, bit `7 - x % 8`
of byte `y * ceil(width/8) + x / 8` of the monochrome bitmap (MSB first,
row-major, row stride `ceil(width/8)`) is set exactly when the luma the
program computes — the float64 evaluation of `0.299R + 0.587G + 0.114B` —
is strictly below 128, and clear when it is at or above.  This differs
from the claim's exact-arithmetic threshold only at boundary pixels where
the float64 sum rounds just below 128 while the exact value is 128 —
see the counterexample. -/
theorem convert_bit_spec :
    ∀ (pixels : Nat → Nat) (w h x y : Nat), x < w → y < h →
    Nat.testBit ((convertToMonochrome pixels w h).getD (y * widthBytes w + x / 8) 0)
        (7 - x % 8)
      = decide (luma pixels w x y < 128) := by
  intro pixels w h x y hx hy
  have hwB : x / 8 < widthBytes w := by unfold widthBytes; omega
  have hbound : ∀ p ∈ rasterPositions w h,
      p.2 * widthBytes w + p.1 / 8 < (List.replicate (widthBytes w * h) 0).length := by
    intro p hp
    obtain ⟨hp1, hp2⟩ := mem_rasterPositions.mp hp
    have h1 : p.1 / 8 < widthBytes w := by unfold widthBytes; omega
    rw [List.length_replicate]
    calc p.2 * widthBytes w + p.1 / 8
        < p.2 * widthBytes w + widthBytes w := by omega
      _ = (p.2 + 1) * widthBytes w := by ring
      _ ≤ h * widthBytes w := Nat.mul_le_mul_right _ hp2
      _ = widthBytes w * h := Nat.mul_comm _ _
  rw [convertToMonochrome_eq_flat, testBit_foldRaster pixels w (widthBytes w) _ _ _ _ hbound]
  have hinit : Nat.testBit ((List.replicate (widthBytes w * h) 0).getD
      (y * widthBytes w + x / 8) 0) (7 - x % 8) = false := by
    rw [List.getD_eq_getElem?_getD]
    rcases h' : (List.replicate (widthBytes w * h) (0 : Nat))[(y * widthBytes w + x / 8)]? with _ | v
    · simp
    · have := List.getElem?_mem h'
      rw [List.eq_of_mem_replicate this]
      simp
  rw [hinit, Bool.false_or]
  have hrw : decide (luma pixels w x y < 128) = thresholdBit pixels w x y := rfl
  rw [hrw]
  rcases hth : thresholdBit pixels w x y with _ | _
  · simp only [List.any_eq_false]
    intro p hp hcon
    obtain ⟨hp1, hp2⟩ := mem_rasterPositions.mp hp
    simp only [Bool.and_eq_true, decide_eq_true_eq] at hcon
    obtain ⟨⟨hthp, hbyte⟩, hbit⟩ := hcon
    have hmod : p.1 % 8 = x % 8 := by omega
    have h1 : p.1 / 8 < widthBytes w := by unfold widthBytes; omega
    obtain ⟨hrow, hcol⟩ := row_of_byteIdx_eq h1 hwB hbyte
    have hpx : p.1 = x := by omega
    rw [hpx, hrow] at hthp
    rw [hth] at hthp
    cases hthp
  · refine List.any_eq_true.mpr ⟨(x, y), mem_rasterPositions.mpr ⟨hx, hy⟩, ?_⟩
    simp [hth]

/-- C4 counterexample: at pixel (0, 0) with (R, G, B) = (8, 200, 72) the
exact luma `0.299*8 + 0.587*200 + 0.114*72` is exactly 128, where the
claim requires a clear bit — but the float64 sum the program computes is
127.99999999999999, strictly below 128, and the conversion sets the ink
bit. -/
theorem convert_bit_counterexample :
    (0.299 * 8 + 0.587 * 200 + 0.114 * 72 : ℚ) = 128
    ∧ luma (fun i => if i = 0 then 8 else if i = 1 then 200
        else if i = 2 then 72 else 0) 8 0 0 < 128
    ∧ Nat.testBit ((convertToMonochrome
        (fun i => if i = 0 then 8 else if i = 1 then 200
          else if i = 2 then 72 else 0) 8 1).getD 0 0) 7 = true := by
  refine ⟨by norm_num, by with_unfolding_all decide, by with_unfolding_all decide⟩

/-- Concrete run of C4's theorem: an all-black 8x1 capture, pixel (0, 0);
its luma 0 is below the threshold and its MSB is set. -/
theorem convert_bit_spec_witness :
    (0 : Nat) < 8 ∧ (0 : Nat) < 1 ∧
    Nat.testBit ((convertToMonochrome (fun _ => 0) 8 1).getD
        (0 * widthBytes 8 + 0 / 8) 0) (7 - 0 % 8)
      = decide (luma (fun _ => 0) 8 0 0 < 128) :=
  ⟨by decide, by decide, convert_bit_spec (fun _ => 0) 8 1 0 0 (by decide) (by decide)⟩

theorem countCutMarks_cons_ne (a : Nat) (l : List Nat) (h : a ≠ 29) :
    countCutMarks (a :: l) = countCutMarks l := by
  cases l with
  | nil => rfl
  | cons b t =>
    have e : countCutMarks (a :: b :: t) =
        (if a = 29 ∧ b = 86 then 1 else 0) + countCutMarks (b :: t) := rfl
    rw [e, if_neg (fun hab => h hab.1)]
    simp

theorem countCutMarks_append (l r : List Nat) (h : r.head? ≠ some 86) :
    countCutMarks (l ++ r) = countCutMarks l + countCutMarks r := by
  induction l with
  | nil => simp [countCutMarks]
  | cons a t ih =>
    cases t with
    | nil =>
      cases r with
      | nil => simp [countCutMarks]
      | cons b s =>
        have hb : b ≠ 86 := by
          intro hb
          exact h (by rw [hb]; rfl)
        have e1 : countCutMarks ([a] ++ b :: s) =
            (if a = 29 ∧ b = 86 then 1 else 0) + countCutMarks (b :: s) := rfl
        rw [e1, if_neg (fun hab => hb hab.2)]
        simp [countCutMarks]
    | cons b s =>
      have e1 : countCutMarks ((a :: b :: s) ++ r) =
          (if a = 29 ∧ b = 86 then 1 else 0) + countCutMarks ((b :: s) ++ r) := rfl
      have e2 : countCutMarks (a :: b :: s) =
          (if a = 29 ∧ b = 86 then 1 else 0) + countCutMarks (b :: s) := rfl
      rw [e1, e2, ih]
      omega

theorem hasPair_append (a b : Nat) (l r : List Nat) (h : hasPair a b r = true) :
    hasPair a b (l ++ r) = true := by
  induction l with
  | nil => simpa
  | cons x t ih =>
    cases t with
    | nil =>
      cases r with
      | nil => cases h
      | cons y s =>
        have e : hasPair a b ([x] ++ y :: s) =
            ((x == a && y == b) || hasPair a b (y :: s)) := rfl
        rw [e, h]
        simp
    | cons z t' =>
      have e : hasPair a b ((x :: z :: t') ++ r) =
          ((x == a && z == b) || hasPair a b ((z :: t') ++ r)) := rfl
      rw [e, ih]
      simp

/-- C1 (amended): every rendering path places its cut command(s) at the
very end, after a blank-line feed; the text path and the
`print-formatter.js` image path append exactly one cut command, but the
image path of `src/unnamed/part_000` appends TWO (a full cut then a
partial cut); and `printToTCPPrinter` appends its own cut command exactly
when its scan finds none of the known cut byte patterns — in particular
it adds nothing after `addCuttingCommands`. -/
theorem cut_command_spec : ∀ body data : List Nat,
    ([29, 86, 0] <:+ Part000.addCuttingCommands body
      ∧ countCutMarks (Part000.addCuttingCommands body) = countCutMarks body + 1)
    ∧ ([29, 86, 65, 3] <:+ Part000.printImageFinal body
      ∧ countCutMarks (Part000.printImageFinal body) = countCutMarks body + 2)
    ∧ ([29, 86, 66, 3] <:+ PrintFormatterJs.printAsImageFinal body
      ∧ countCutMarks (PrintFormatterJs.printAsImageFinal body) = countCutMarks body + 1)
    ∧ LocalPrintAgent.printerPayload (Part000.addCuttingCommands body) =
        Part000.addCuttingCommands body
    ∧ (LocalPrintAgent.hasCutCommand data = false →
        LocalPrintAgent.printerPayload data = data ++ [0x1d, 0x56, 0x41, 0x10])
    ∧ (LocalPrintAgent.hasCutCommand data = true →
        LocalPrintAgent.printerPayload data = data) := by
  intro body data
  have htext : Part000.addCuttingCommands body =
      body ++ [27, 100, 3, 7, 7, 29, 86, 0] := by
    simp [Part000.addCuttingCommands]
  have himg : Part000.printImageFinal body =
      27 :: 64 :: (body ++ [27, 100, 8, 7, 7, 27, 66, 3, 3, 1, 29, 86, 0, 29, 86, 65, 3]) := by
    simp [Part000.printImageFinal]
  have hjs : PrintFormatterJs.printAsImageFinal body =
      27 :: 64 :: (body ++ [27, 66, 2, 1, 10, 27, 100, 3, 29, 86, 66, 3]) := by
    simp [PrintFormatterJs.printAsImageFinal]
  have hcut : LocalPrintAgent.hasCutCommand (Part000.addCuttingCommands body) = true := by
    rw [htext]
    unfold LocalPrintAgent.hasCutCommand
    rw [hasPair_append 27 100 body _ (by decide)]
    simp
  refine ⟨⟨?_, ?_⟩, ⟨?_, ?_⟩, ⟨?_, ?_⟩, ?_, fun hnone => ?_, fun hsome => ?_⟩
  · exact ⟨body ++ [27, 100, 3, 7, 7], by rw [htext]; simp⟩
  · rw [htext, countCutMarks_append body _ (by decide)]
    norm_num [show countCutMarks [27, 100, 3, 7, 7, 29, 86, 0] = 1 from by decide]
  · exact ⟨27 :: 64 :: (body ++ [27, 100, 8, 7, 7, 27, 66, 3, 3, 1, 29, 86, 0]),
      by rw [himg]; simp⟩
  · rw [himg, countCutMarks_cons_ne 27 _ (by decide),
      countCutMarks_cons_ne 64 _ (by decide),
      countCutMarks_append body _ (by decide)]
    norm_num [show countCutMarks [27, 100, 8, 7, 7, 27, 66, 3, 3, 1, 29, 86, 0, 29, 86, 65, 3] = 2
      from by decide]
  · exact ⟨27 :: 64 :: (body ++ [27, 66, 2, 1, 10, 27, 100, 3]),
      by rw [hjs]; simp⟩
  · rw [hjs, countCutMarks_cons_ne 27 _ (by decide),
      countCutMarks_cons_ne 64 _ (by decide),
      countCutMarks_append body _ (by decide)]
    norm_num [show countCutMarks [27, 66, 2, 1, 10, 27, 100, 3, 29, 86, 66, 3] = 1
      from by decide]
  · unfold LocalPrintAgent.printerPayload
    rw [hcut]
    simp
  · unfold LocalPrintAgent.printerPayload
    rw [hnone]
    simp
  · unfold LocalPrintAgent.printerPayload
    rw [hsome]
    simp

/-- C1 counterexample: for a concrete 8x1 artifact, the byte stream the
part_000 image path hands to the printer — unchanged by
`printToTCPPrinter`, whose scan already sees a cut — contains two
paper-cut commands, not exactly one. -/
theorem cut_command_counterexample :
    (Part000.printContentAsImageBytes ⟨8, 1, [0]⟩).map
        (fun bytes => countCutMarks (LocalPrintAgent.printerPayload bytes)) =
      Except.ok 2 := by rfl

theorem lookupO_setFieldO_self : ∀ (f : JsonObj) (k : String) (v : JsonVal),
    lookupO k (setFieldO f k v) = some v
  | .nil, k, v => by simp [setFieldO, lookupO]
  | .cons k0 v0 tl, k, v => by
    by_cases h : k0 = k
    · simp [setFieldO, h, lookupO]
    · simp [setFieldO, h, lookupO, lookupO_setFieldO_self tl k v]

theorem lookupO_setFieldO_ne : ∀ (f : JsonObj) (k k' : String) (v : JsonVal),
    k' ≠ k → lookupO k' (setFieldO f k v) = lookupO k' f
  | .nil, k, k', v => fun hne => by simp [setFieldO, lookupO, Ne.symm hne]
  | .cons k0 v0 tl, k, k', v => fun hne => by
    by_cases h : k0 = k
    · subst h
      simp [setFieldO, lookupO, Ne.symm hne]
    · simp [setFieldO, h, lookupO, lookupO_setFieldO_ne tl k k' v hne]

/-- C9 (amended): the print entry points mutate the content object in
exactly one way — the top-level `_printMethod` field is set — and no
other field, at any depth, is added, removed or changed: every other
top-level key keeps its exact (sub)value. -/
theorem markPrintMethod_mutation : ∀ (f : JsonObj) (k' : String),
    PrintFormatterJs.markPrintMethod (.jobj f) =
      .jobj (setFieldO f "_printMethod" (.jstr "html-image"))
    ∧ lookupO "_printMethod" (setFieldO f "_printMethod" (.jstr "html-image")) =
        some (.jstr "html-image")
    ∧ (k' ≠ "_printMethod" →
        lookupO k' (setFieldO f "_printMethod" (.jstr "html-image")) = lookupO k' f)
    ∧ ∀ pm : String, Part000.markPrintMethod pm (.jobj f) =
        .jobj (setFieldO f "_printMethod" (.jstr pm)) := by
  intro f k'
  exact ⟨rfl, lookupO_setFieldO_self f _ _,
    fun h => lookupO_setFieldO_ne f _ k' _ h, fun pm => rfl⟩

/-- C9 counterexample: a concrete content object is NOT unchanged by the
image print entry point — it gains the `_printMethod` field. -/
theorem markPrintMethod_counterexample :
    PrintFormatterJs.markPrintMethod (.jobj (.cons "items" (.jarr .nil) .nil)) ≠
      .jobj (.cons "items" (.jarr .nil) .nil) := by decide

theorem str_data_append (s t : String) : (s ++ t).data = s.data ++ t.data := by
  cases s
  cases t
  rfl

theorem digitChar_isDigit (d : Nat) : (digitChar d).isDigit = true := by
  unfold digitChar
  split <;> decide

theorem digitChar_ne_dot (d : Nat) : digitChar d ≠ '.' := by
  unfold digitChar
  split <;> decide

theorem natChars_all_digits : ∀ (fuel n : Nat), ∀ c ∈ natChars fuel n,
    ∃ d, c = digitChar d := by
  intro fuel
  induction fuel with
  | zero => intro n c hc; cases hc
  | succ f ih =>
    intro n c hc
    unfold natChars at hc
    by_cases hn : n = 0
    · rw [if_pos hn] at hc; cases hc
    · rw [if_neg hn] at hc
      rcases List.mem_append.mp hc with h | h
      · exact ih _ c h
      · rw [List.mem_singleton.mp h]
        exact ⟨n % 10, rfl⟩

theorem natToString_no_dot (n : Nat) : '.' ∉ (natToString n).data := by
  intro hmem
  unfold natToString at hmem
  split at hmem
  · exact absurd hmem (by decide)
  · obtain ⟨d, hd⟩ := natChars_all_digits n n '.' hmem
    exact digitChar_ne_dot d hd.symm

theorem moneyTwoDecimals_toFixed2 (q : ℚ) : moneyTwoDecimals (jsToFixed2 q) := by
  refine ⟨(if q < 0 then "-" else "") ++ natToString (⌊|q| * 100 + 1 / 2⌋.toNat / 100),
    digitChar (⌊|q| * 100 + 1 / 2⌋.toNat / 10 % 10), digitChar (⌊|q| * 100 + 1 / 2⌋.toNat % 10),
    ?_, digitChar_isDigit _, digitChar_isDigit _⟩
  unfold jsToFixed2
  rw [String.append_assoc, String.append_assoc]

theorem moneyTwoDecimals_prepend (p s : String) (h : moneyTwoDecimals s) :
    moneyTwoDecimals (p ++ s) := by
  obtain ⟨a, d1, d2, heq, h1, h2⟩ := h
  exact ⟨p ++ a, d1, d2, by rw [heq]; simp [String.append_assoc], h1, h2⟩

theorem no_dot_not_moneyTwoDecimals (s : String) (h : '.' ∉ s.data) :
    ¬ moneyTwoDecimals s := by
  rintro ⟨a, d1, d2, heq, _, _⟩
  apply h
  rw [heq, str_data_append, str_data_append]
  exact List.mem_append.mpr (Or.inl (List.mem_append.mpr (Or.inr (by decide))))

theorem jsNumToString_int_no_dot (q : ℚ) (h : q.den = 1) :
    '.' ∉ (jsNumToString q).data := by
  have he : jsNumToString q =
      (if q.num < 0 then "-" else "") ++ natToString q.num.natAbs := by
    unfold jsNumToString
    rw [h]
    rw [if_pos (Nat.mod_one _)]
    simp
  rw [he, str_data_append]
  intro hmem
  rcases List.mem_append.mp hmem with h1 | h1
  · split at h1 <;> exact absurd h1 (by decide)
  · exact natToString_no_dot _ h1

/-- C7 (amended): `toFixed(2)` always renders exactly two decimal digits,
and every money field of the HTML bill formatter — unit price, line
total, subtotal, discount amount, tax components, rounding adjustment,
total — goes through it; in the text-mode bill formatters the line total
does too and the quantity is a right-aligned integer, but the item UNIT
price is the raw `${item.price || 0}` interpolation, which for a
whole-number price renders with no decimal point at all. -/
theorem bill_money_format_spec :
    (∀ q : ℚ, moneyTwoDecimals (jsToFixed2 q))
    ∧ (∀ (items : List BillItem) (s : BillSummary),
        ∀ x ∈ PrintFormatterJs.billMoneyStrings items s, moneyTwoDecimals x)
    ∧ (∀ it : BillItem,
        moneyTwoDecimals ((Part000Text.billItemCells it).getD 3 "")
        ∧ (Part000Text.billItemCells it).getD 2 "" =
            padStart 2 ' ' (natToString it.quantity)
        ∧ (Part000Text.billItemCells it).getD 1 "" = "Rs." ++ jsNumToString it.price
        ∧ (Part000Text.billContentColumns it).getD 0 "" =
            padStart 8 ' ' (jsNumToString it.price)
        ∧ (it.price.den = 1 → ¬ moneyTwoDecimals (jsNumToString it.price))) := by
  refine ⟨moneyTwoDecimals_toFixed2, ?_, ?_⟩
  · intro items s x hx
    unfold PrintFormatterJs.billMoneyStrings at hx
    rcases List.mem_append.mp hx with h | h
    · obtain ⟨it, _, hmem⟩ := List.mem_flatMap.mp h
      simp only [List.mem_cons, List.not_mem_nil, or_false] at hmem
      rcases hmem with rfl | rfl <;> exact moneyTwoDecimals_toFixed2 _
    · simp only [List.mem_cons, List.not_mem_nil, or_false] at h
      rcases h with rfl | rfl | rfl | rfl | rfl | rfl | rfl | rfl <;>
        exact moneyTwoDecimals_toFixed2 _
  · intro it
    exact ⟨moneyTwoDecimals_prepend "Rs." _ (moneyTwoDecimals_toFixed2 _),
      rfl, rfl, rfl,
      fun hden => no_dot_not_moneyTwoDecimals _ (jsNumToString_int_no_dot _ hden)⟩

/-- C7 counterexample: for the item \x7bname "Tea", price 50, quantity 2\x7d
the unit-price cell of the text-mode bill table is `Rs.50` — the number
is rendered with no decimal digits, not with exactly two. -/
theorem bill_money_format_counterexample :
    (Part000Text.billItemCells ⟨"Tea", 50, 2⟩).getD 1 "" =
      "Rs." ++ jsNumToString 50
    ∧ jsNumToString 50 = "50"
    ∧ ¬ moneyTwoDecimals (jsNumToString 50) :=
  ⟨rfl, by decide,
    no_dot_not_moneyTwoDecimals _ (jsNumToString_int_no_dot 50 (by decide))⟩

theorem orderedInsert_comm (p q : String × JsonVal) (l : List (String × JsonVal))
    (h : p.1 ≠ q.1) :
    List.orderedInsert keyLE p (List.orderedInsert keyLE q l) =
      List.orderedInsert keyLE q (List.orderedInsert keyLE p l) := by
  have hpq : ¬ (keyLE p q ∧ keyLE q p) := by
    rintro ⟨h1, h2⟩
    exact h (le_antisymm h1 h2)
  have htot : keyLE p q ∨ keyLE q p := le_total p.1 q.1
  induction l with
  | nil =>
    simp only [List.orderedInsert]
    by_cases h1 : keyLE p q
    · have h2 : ¬ keyLE q p := fun h2 => hpq ⟨h1, h2⟩
      simp [h1, h2]
    · have h2 : keyLE q p := htot.resolve_left h1
      simp [h1, h2]
  | cons a l ih =>
    simp only [List.orderedInsert]
    by_cases hqa : keyLE q a <;> by_cases hpa : keyLE p a
    · by_cases h1 : keyLE p q
      · have h2 : ¬ keyLE q p := fun h2 => hpq ⟨h1, h2⟩
        simp [List.orderedInsert, h1, h2, hqa, hpa]
      · have h2 : keyLE q p := htot.resolve_left h1
        simp [List.orderedInsert, h1, h2, hqa, hpa]
    · have h1 : ¬ keyLE p q := fun h1 => hpa (le_trans h1 hqa)
      simp [List.orderedInsert, hqa, hpa, h1]
    · have h2 : ¬ keyLE q p := fun h2 => hqa (le_trans h2 hpa)
      simp [List.orderedInsert, hqa, hpa, h2]
    · simp [List.orderedInsert, hqa, hpa, ih]

theorem sortObjectKeys_eq_of_equiv {a b : JsonVal} (h : JEquiv a b) :
    sortObjectKeys a = sortObjectKeys b := by
  refine @JEquiv.rec
    (fun a b _ => sortObjectKeys a = sortObjectKeys b)
    (fun l1 l2 _ => sortObjectKeysA l1 = sortObjectKeysA l2)
    (fun f1 f2 _ => List.insertionSort keyLE (toListO (sortObjectKeysO f1)) =
      List.insertionSort keyLE (toListO (sortObjectKeysO f2)))
    rfl (fun _ => rfl) (fun _ => rfl) (fun _ => rfl)
    ?_ ?_ rfl ?_ rfl ?_ ?_ ?_ a b h
  · intro l1 l2 hl ih
    rw [sortObjectKeys, sortObjectKeys, ih]
  · intro f1 f2 hf ih
    rw [sortObjectKeys, sortObjectKeys, ih]
  · intro x y l1 l2 hv hl ihv ihl
    rw [sortObjectKeysA, sortObjectKeysA, ihv, ihl]
  · intro k v1 v2 f1 f2 hv hf ihv ihf
    simp only [sortObjectKeysO, toListO, List.insertionSort]
    rw [ihv, ihf]
  · intro k1 k2 v1 v2 f hk
    simp only [sortObjectKeysO, toListO, List.insertionSort]
    exact orderedInsert_comm (k1, sortObjectKeys v1) (k2, sortObjectKeys v2) _ hk
  · intro f1 f2 f3 h1 h2 ih1 ih2
    exact ih1.trans ih2

theorem str_ext {s t : String} (h : s.data = t.data) : s = t :=
  congrArg String.mk h

theorem append_inj_mid (p s1 s2 d : String) (h : p ++ s1 ++ d = p ++ s2 ++ d) :
    s1 = s2 := by
  have hd := congrArg String.data h
  rw [str_data_append, str_data_append, str_data_append, str_data_append,
    List.append_assoc, List.append_assoc] at hd
  exact str_ext (List.append_cancel_right (List.append_cancel_left hd))

theorem contentDigestInput_shape (content : JsonVal) (t : String) (cfg : JsonVal) :
    Part000.contentDigestInput content t cfg =
      ("\x7b" ++ (quoteJson "content" ++ ":" ++ serializeV content ++ "," ++
        (quoteJson "type" ++ ":" ++ serializeV (.jstr t) ++ "," ++
          (quoteJson "config" ++ ":")))) ++ serializeV cfg ++ "\x7d" := by
  unfold Part000.contentDigestInput
  simp only [serializeV, serializeO]
  simp [String.append_assoc]

theorem contentDigestInputJs_shape (content : JsonVal) (t : String) (cfg : JsonVal) :
    PrintFormatterJs.contentDigestInput content t cfg =
      ("\x7b" ++ (quoteJson "content" ++ ":" ++ serializeV (sortObjectKeys content) ++ "," ++
        (quoteJson "type" ++ ":" ++ serializeV (.jstr t) ++ "," ++
          (quoteJson "config" ++ ":")))) ++ serializeV cfg ++ "\x7d" := by
  unfold PrintFormatterJs.contentDigestInput
  simp only [serializeV, serializeO]
  simp [String.append_assoc]

/-- C2 (amended): the `print-formatter.js` fingerprint is invariant under
reordering of object keys at any depth — `sortObjectKeys` canonicalizes
the content before it is digested — and in both implementations the
digest input embeds the content, the content-type tag and the active
configuration, so configurations that serialize differently give
different digest inputs.  (The `part_000` variant digests the content
without canonicalizing; see the counterexample.) -/
theorem generateContentHash_spec : ∀ (c1 c2 cfg cfg2 : JsonVal) (t : String),
    (JEquiv c1 c2 →
      PrintFormatterJs.generateContentHash c1 t cfg =
        PrintFormatterJs.generateContentHash c2 t cfg)
    ∧ (serializeV cfg ≠ serializeV cfg2 →
        PrintFormatterJs.contentDigestInput c1 t cfg ≠
          PrintFormatterJs.contentDigestInput c1 t cfg2)
    ∧ (serializeV cfg ≠ serializeV cfg2 →
        Part000.contentDigestInput c1 t cfg ≠ Part000.contentDigestInput c1 t cfg2) := by
  intro c1 c2 cfg cfg2 t
  refine ⟨fun h => ?_, fun hne heq => ?_, fun hne heq => ?_⟩
  · unfold PrintFormatterJs.generateContentHash PrintFormatterJs.contentDigestInput
    rw [sortObjectKeys_eq_of_equiv h]
  · rw [contentDigestInputJs_shape, contentDigestInputJs_shape] at heq
    exact hne (append_inj_mid _ _ _ _ heq)
  · rw [contentDigestInput_shape, contentDigestInput_shape] at heq
    exact hne (append_inj_mid _ _ _ _ heq)

/-- C2 counterexample: two content objects that differ only in top-level
key order, a fixed type tag and a fixed configuration — the
`generateContentHash` of the first class of `src/unnamed/part_000`, which
skips `sortObjectKeys`, gives them different fingerprints. -/
theorem generateContentHash_counterexample :
    JEquiv (.jobj (.cons "a" (.jnum "1") (.cons "b" (.jnum "2") .nil)))
      (.jobj (.cons "b" (.jnum "2") (.cons "a" (.jnum "1") .nil)))
    ∧ Part000.generateContentHash
        (.jobj (.cons "a" (.jnum "1") (.cons "b" (.jnum "2") .nil))) "kot"
        (.jobj (.cons "lineWidth" (.jnum "384") .nil)) ≠
      Part000.generateContentHash
        (.jobj (.cons "b" (.jnum "2") (.cons "a" (.jnum "1") .nil))) "kot"
        (.jobj (.cons "lineWidth" (.jnum "384") .nil)) :=
  ⟨.obj (.swap "a" "b" (.jnum "1") (.jnum "2") .nil (by decide)), by decide⟩
